import Mathlib

/-!
Verification of the blocking-I/O-to-async bridge and the deadline combinators
of the async-std repository (files src/io/stdin.rs, src/io/stdout.rs,
src/io/stderr.rs, src/future/timeout.rs, src/io/timeout.rs).

The bridge is a mutex-guarded state machine `State = Idle(Option<Inner>) |
Busy(JoinHandle<State>)`.  Polling a `Busy` join handle is the only external
suspension point; in the shallow embedding the join handle is represented by
the `Inner` value that was moved into the dispatched closure together with a
tag saying which blocking operation the closure performs, and the outcome of
each successive poll of the handle is supplied by an explicit environment
list (`Env`): either the worker has not finished yet, or it finished and the
underlying synchronous call returned the given results.  The `loop` in each
poll function is bounded by an explicit `fuel` argument; exhausting the fuel
yields a distinguished `spin` outcome carrying the state the loop had
reached.
-/

deriving instance DecidableEq for Except

namespace AsyncStd

/-- Kind of a synchronous I/O error: io::ErrorKind, kept abstract except for
the `TimedOut` kind which `io::timeout` constructs. -/
inductive ErrorKind
  | timedOut
  | other (code : Nat)
  deriving DecidableEq

/-- An io::Error value, abstracted to its kind plus a message string. -/
structure IoError where
  kind : ErrorKind
  msg : String
  deriving DecidableEq

/-- core::task::Poll. -/
inductive Poll (α : Type)
  | ready (a : α)
  | pending
  deriving DecidableEq

namespace Stdout

/-!
Embedding of src/io/stdout.rs.  src/io/stderr.rs contains the textually
identical state machine (with the handle field named `coreerr` instead of
`coreout`); every definition and theorem below therefore reads for both the
Stdout and the Stderr bridge.  The opaque OS handle field of `Inner` carries
no data and is omitted; a write buffer byte is modelled as a `Nat`.
-/

/-- Possible results of an asynchronous operation (stdout.rs lines 104-109):
`enum Operation { Write(io::Result<usize>), Flush(io::Result<()>) }`. -/
inductive Operation
  | write (r : Except IoError Nat)
  | flush (r : Except IoError Unit)
  deriving DecidableEq

/-- Inner representation (stdout.rs lines 91-102): the reusable write buffer
`buf: Vec<u8>` and `last_op: Option<Operation>`.  The opaque blocking handle
`coreout: core::io::Stdout` carries no observable data. -/
structure Inner where
  buf : List Nat
  last_op : Option Operation
  deriving DecidableEq

/-- Which blocking closure a Busy join handle is running. -/
inductive Job
  | write
  | flush
  deriving DecidableEq

/-- The state of the asynchronous handle (stdout.rs lines 80-89):
`enum State { Idle(Option<Inner>), Busy(JoinHandle<State>) }`.  The join
handle is represented by the `Inner` moved into the dispatched closure plus
the `Job` tag naming the blocking operation the closure performs. -/
inductive State
  | idle (o : Option Inner)
  | busy (inner : Inner) (job : Job)
  deriving DecidableEq

/-- One answer of the environment to a poll of the Busy join handle: either
the worker thread has not finished, or it finished and the opaque synchronous
call returned the given results (a write job reads the first component, a
flush job the second). -/
inductive Env
  | pending
  | done (wr : Except IoError Nat) (fr : Except IoError Unit)
  deriving DecidableEq

/-- Body of the closure passed to spawn_blocking (stdout.rs lines 177-181 for
write, 205-209 for flush): perform the synchronous call, store its outcome
into `last_op`, and return the new state `Idle(Some(inner))`.  The
synchronous write takes `&inner.buf` immutably, so `buf` is unchanged. -/
def completeJob (inner : Inner) (job : Job) (wr : Except IoError Nat)
    (fr : Except IoError Unit) : State :=
  match job with
  | .write => .idle (some { inner with last_op := some (.write wr) })
  | .flush => .idle (some { inner with last_op := some (.flush fr) })

/-- Outcome of one poll call: Ready with a result and the post-call state,
Pending with the post-call state, the failure of `opt.as_mut().unwrap()` on
`Idle(None)`, or fuel exhaustion while the source `loop` would continue. -/
inductive PollResult (α : Type)
  | ready (r : Except IoError α) (s : State)
  | pending (s : State)
  | unwrapNone
  | spin (s : State)
  deriving DecidableEq

/-- Stdout::poll_write (stdout.rs lines 141-188; stderr.rs identical).
`inner.last_op.take()` clears `last_op` unconditionally, so a recorded result
of non-Write kind is dropped and the else-branch dispatches.  The dispatch
branch models `set_len(buf.len())` followed by `copy_from_slice(buf)`: the
inner buffer becomes exactly the caller's bytes. -/
def poll_write (fuel : Nat) (buf : List Nat) (s : State) (env : List Env) :
    PollResult Nat :=
  match fuel with
  | 0 => .spin s
  | fuel + 1 =>
    match s with
    | .idle none => .unwrapNone
    | .idle (some inner) =>
      match inner.last_op with
      | some (.write res) =>
        match res with
        | .error e => .ready (.error e) (.idle (some { inner with last_op := none }))
        | .ok n =>
          if n ≤ buf.length then
            .ready (.ok n) (.idle (some { inner with last_op := none }))
          else
            poll_write fuel buf (.idle (some { inner with last_op := none })) env
      | some (.flush _) =>
        poll_write fuel buf (.busy { inner with last_op := none, buf := buf } .write) env
      | none =>
        poll_write fuel buf (.busy { inner with last_op := none, buf := buf } .write) env
    | .busy inner job =>
      match env with
      | [] => .pending (.busy inner job)
      | .pending :: _ => .pending (.busy inner job)
      | .done wr fr :: env => poll_write fuel buf (completeJob inner job wr fr) env

/-- Stdout::poll_flush (stdout.rs lines 190-216; stderr.rs identical). -/
def poll_flush (fuel : Nat) (s : State) (env : List Env) : PollResult Unit :=
  match fuel with
  | 0 => .spin s
  | fuel + 1 =>
    match s with
    | .idle none => .unwrapNone
    | .idle (some inner) =>
      match inner.last_op with
      | some (.flush res) => .ready res (.idle (some { inner with last_op := none }))
      | some (.write _) =>
        poll_flush fuel (.busy { inner with last_op := none } .flush) env
      | none =>
        poll_flush fuel (.busy { inner with last_op := none } .flush) env
    | .busy inner job =>
      match env with
      | [] => .pending (.busy inner job)
      | .pending :: _ => .pending (.busy inner job)
      | .done wr fr :: env => poll_flush fuel (completeJob inner job wr fr) env

/-- Stdout::poll_close (stdout.rs lines 218-220; stderr.rs lines 218-220
identical): `self.poll_flush(cx)`. -/
def poll_close (fuel : Nat) (s : State) (env : List Env) : PollResult Unit :=
  poll_flush fuel s env

end Stdout

namespace Stdin

/-!
Embedding of src/io/stdin.rs: the input bridge, with operations
`poll_read` (the Read impl, lines 199-247) and `read_line` (lines 132-167).
-/

/-- Possible results of an asynchronous operation (stdin.rs lines 109-114):
`enum Operation { ReadLine(io::Result<usize>), Read(io::Result<usize>) }`. -/
inductive Operation
  | readLine (r : Except IoError Nat)
  | read (r : Except IoError Nat)
  deriving DecidableEq

/-- Inner representation (stdin.rs lines 93-107): the line buffer
`line: String`, the read buffer `buf: Vec<u8>`, and
`last_op: Option<Operation>`.  The opaque blocking handle
`corein: core::io::Stdin` carries no observable data. -/
structure Inner where
  line : String
  buf : List Nat
  last_op : Option Operation
  deriving DecidableEq

/-- Which blocking closure a Busy join handle is running. -/
inductive Job
  | readLine
  | read
  deriving DecidableEq

/-- The state of the asynchronous handle (stdin.rs lines 82-91). -/
inductive State
  | idle (o : Option Inner)
  | busy (inner : Inner) (job : Job)
  deriving DecidableEq

/-- One answer of the environment to a poll of the Busy join handle: either
the worker has not finished, or it finished and the opaque synchronous call
returned the given results — for a read job the result `rr` together with
the bytes `data` the OS wrote into the buffer prefix, for a read_line job
the result `lr` together with the line text `lineData` appended by
`core::io::Stdin::read_line`. -/
inductive Env
  | pending
  | done (rr : Except IoError Nat) (data : List Nat)
      (lr : Except IoError Nat) (lineData : String)
  deriving DecidableEq

/-- Body of the closure passed to spawn_blocking.  For a read job
(stdin.rs lines 235-239) the synchronous read overwrites a prefix of
`inner.buf` in place, leaving its length unchanged, and the result is stored
as `Operation::Read`.  For a read_line job (stdin.rs lines 152-157) the
closure first clears `inner.line`, then `read_line` appends the line text to
the cleared accumulator, and the result is stored as `Operation::ReadLine`.
Both closures return `State::Idle(Some(inner))`. -/
def completeJob (inner : Inner) (job : Job) (rr : Except IoError Nat)
    (data : List Nat) (lr : Except IoError Nat) (lineData : String) : State :=
  match job with
  | .read =>
    .idle (some { inner with
      buf := data.take inner.buf.length ++ inner.buf.drop data.length,
      last_op := some (.read rr) })
  | .readLine =>
    let cleared := { inner with line := "" }
    .idle (some { cleared with
      line := cleared.line ++ lineData,
      last_op := some (.readLine lr) })

/-- `Vec::set_len` preceded by a sufficient `reserve` (stdin.rs lines
226-232): the buffer length becomes `n`; bytes beyond the old length are
uninitialized memory, modelled as 0 (no claim inspects them). -/
def set_len (l : List Nat) (n : Nat) : List Nat :=
  l.take n ++ List.replicate (n - l.length) 0

/-- Outcome of one poll_read call; `buf` is the caller's buffer after the
call (poll_read copies `inner.buf[..n]` into it on success). -/
inductive ReadResult
  | ready (r : Except IoError Nat) (buf : List Nat) (s : State)
  | pending (buf : List Nat) (s : State)
  | unwrapNone
  | spin (buf : List Nat) (s : State)
  deriving DecidableEq

/-- Stdin::poll_read (stdin.rs lines 200-246).  `inner.last_op.take()`
clears `last_op` unconditionally, so a recorded result of non-Read kind is
dropped and the else-branch dispatches a fresh read. -/
def poll_read (fuel : Nat) (buf : List Nat) (s : State) (env : List Env) :
    ReadResult :=
  match fuel with
  | 0 => .spin buf s
  | fuel + 1 =>
    match s with
    | .idle none => .unwrapNone
    | .idle (some inner) =>
      match inner.last_op with
      | some (.read res) =>
        match res with
        | .error e => .ready (.error e) buf (.idle (some { inner with last_op := none }))
        | .ok n =>
          if n ≤ buf.length then
            .ready (.ok n) (inner.buf.take n ++ buf.drop n)
              (.idle (some { inner with last_op := none }))
          else
            poll_read fuel buf (.idle (some { inner with last_op := none })) env
      | some (.readLine _) =>
        poll_read fuel buf
          (.busy { inner with last_op := none, buf := set_len inner.buf buf.length } .read)
          env
      | none =>
        poll_read fuel buf
          (.busy { inner with last_op := none, buf := set_len inner.buf buf.length } .read)
          env
    | .busy inner job =>
      match env with
      | [] => .pending buf (.busy inner job)
      | .pending :: _ => .pending buf (.busy inner job)
      | .done rr d lr ld :: env => poll_read fuel buf (completeJob inner job rr d lr ld) env

/-- Outcome of one read_line poll; `buf` is the caller's String after the
call (read_line appends `inner.line` to it via push_str on success). -/
inductive LineResult
  | ready (r : Except IoError Nat) (buf : String) (s : State)
  | pending (buf : String) (s : State)
  | unwrapNone
  | spin (buf : String) (s : State)
  deriving DecidableEq

/-- Stdin::read_line's poll_fn body (stdin.rs lines 132-167). -/
def read_line (fuel : Nat) (buf : String) (s : State) (env : List Env) :
    LineResult :=
  match fuel with
  | 0 => .spin buf s
  | fuel + 1 =>
    match s with
    | .idle none => .unwrapNone
    | .idle (some inner) =>
      match inner.last_op with
      | some (.readLine res) =>
        match res with
        | .error e => .ready (.error e) buf (.idle (some { inner with last_op := none }))
        | .ok n =>
          .ready (.ok n) (buf ++ inner.line) (.idle (some { inner with last_op := none }))
      | some (.read _) =>
        read_line fuel buf (.busy { inner with last_op := none } .readLine) env
      | none =>
        read_line fuel buf (.busy { inner with last_op := none } .readLine) env
    | .busy inner job =>
      match env with
      | [] => .pending buf (.busy inner job)
      | .pending :: _ => .pending buf (.busy inner job)
      | .done rr d lr ld :: env => read_line fuel buf (completeJob inner job rr d lr ld) env

end Stdin

/-- A poll-driven suspendable operation with explicit state: polling
transforms the state and yields Ready or Pending.  This is the shallow
embedding of the Future and Delay (timer) interfaces consumed by the two
deadline combinators. -/
structure FutureM (σ : Type) (α : Type) where
  poll : σ → σ × Poll α

/-- future::timeout's TimeoutFuture (future/timeout.rs lines 43-58): the
wrapped future together with a `Delay` timer whose poll yields Ready once
the duration has elapsed. -/
structure TimeoutFuture (σf σd α : Type) where
  future : FutureM σf α
  delay : FutureM σd Unit

/-- TimeoutError (future/timeout.rs lines 75-79): a unit-like struct,
distinct from anything the wrapped future can produce. -/
structure TimeoutError : Type where
  deriving DecidableEq

/-- TimeoutFuture::poll (future/timeout.rs lines 63-72): poll the wrapped
future first; if Ready, return its value wrapped in Ok without polling the
delay; otherwise poll the delay and return Err(TimeoutError) if it has
elapsed, Pending if not. -/
def TimeoutFuture.poll (tf : TimeoutFuture σf σd α) (s : σf × σd) :
    (σf × σd) × Poll (Except TimeoutError α) :=
  match tf.future.poll s.1 with
  | (sf, .ready v) => ((sf, s.2), .ready (.ok v))
  | (sf, .pending) =>
    match tf.delay.poll s.2 with
    | (sd, .ready _) => ((sf, sd), .ready (.error ⟨⟩))
    | (sd, .pending) => ((sf, sd), .pending)

/-- io::timeout's Timeout (io/timeout.rs lines 46-58). -/
structure Timeout (σf σd α : Type) where
  future : FutureM σf (Except IoError α)
  timeout : FutureM σd Unit

/-- Timeout::poll (io/timeout.rs lines 66-79): poll the wrapped future
first; any Ready output (Ok or Err) is returned unchanged; otherwise poll
the timer and return an io::Error of kind TimedOut if it has elapsed,
Pending if not. -/
def Timeout.poll (t : Timeout σf σd α) (s : σf × σd) :
    (σf × σd) × Poll (Except IoError α) :=
  match t.future.poll s.1 with
  | (sf, .ready v) => ((sf, s.2), .ready v)
  | (sf, .pending) =>
    match t.timeout.poll s.2 with
    | (sd, .ready _) => ((sf, sd), .ready (.error ⟨.timedOut, "future timed out"⟩))
    | (sd, .pending) => ((sf, sd), .pending)

/-- Test fixture: a wrapped operation over a Bool state, Ready with value 42
in state true and Pending in state false. -/
def boolFuture : FutureM Bool Nat :=
  ⟨fun b => (b, if b then .ready 42 else .pending)⟩

/-- Test fixture: a timer that has always elapsed. -/
def unitDelay : FutureM Unit Unit :=
  ⟨fun d => (d, .ready ())⟩

/-- Test fixture: an I/O operation over a Bool state, Ready with Ok 7 in
state true and Pending in state false. -/
def boolIoFuture : FutureM Bool (Except IoError Nat) :=
  ⟨fun b => (b, if b then .ready (.ok 7) else .pending)⟩

/-- Test fixture: a timer over a Bool state, elapsed exactly in state true. -/
def boolDelay : FutureM Bool Unit :=
  ⟨fun d => (d, if d then .ready () else .pending)⟩

/-- A result payload whose error (if any) satisfies `p`. -/
def errOK (p : IoError → Bool) : Except IoError α → Bool
  | .error e => p e
  | .ok _ => true

/-- True when the error kind is not TimedOut: the kind reserved to the
deadline combinators. -/
def notTimedOut (e : IoError) : Bool :=
  match e.kind with
  | .timedOut => false
  | .other _ => true

namespace Stdout

/-- The bridge state invariant claimed by the spec: `Idle` always holds
`Some(Inner)`; `Busy` is unconstrained. -/
def stateOK : State → Bool
  | .idle o => o.isSome
  | .busy _ _ => true

/-- Number of blocking operations in flight: a Busy state holds exactly one
join handle, an Idle state none. -/
def inFlight : State → Nat
  | .idle _ => 0
  | .busy _ _ => 1

/-- Every error recorded in the operation satisfies `p`. -/
def opErrOK (p : IoError → Bool) : Operation → Bool
  | .write r => errOK p r
  | .flush r => errOK p r

/-- Every error recorded in the inner bundle satisfies `p`. -/
def innerErrOK (p : IoError → Bool) (inner : Inner) : Bool :=
  match inner.last_op with
  | some op => opErrOK p op
  | none => true

/-- Every error recorded anywhere in the state satisfies `p`. -/
def stateErrOK (p : IoError → Bool) : State → Bool
  | .idle none => true
  | .idle (some inner) => innerErrOK p inner
  | .busy inner _ => innerErrOK p inner

/-- Every error the environment ever hands to the bridge satisfies `p`. -/
def envErrOK (p : IoError → Bool) : List Env → Bool
  | [] => true
  | .pending :: env => envErrOK p env
  | .done wr fr :: env => errOK p wr && errOK p fr && envErrOK p env

/-- The state a poll call left behind, if the call did not fail the
`Idle(None)` unwrap. -/
def PollResult.post : PollResult α → Option State
  | .ready _ s => some s
  | .pending s => some s
  | .unwrapNone => none
  | .spin s => some s

/-- Combined characterization of one poll_write call: the unwrap never
fails; a Ready outcome leaves the bridge Idle with `last_op` cleared, any Ok
byte count is bounded by the caller buffer length, and any returned error
satisfies `p`; Pending and fuel-exhaustion outcomes preserve the state
invariant and the error condition. -/
def writeResultInv (p : IoError → Bool) (buf : List Nat) : PollResult Nat → Prop
  | .unwrapNone => False
  | .ready r s' =>
      (∃ inner, s' = .idle (some inner) ∧ inner.last_op = none) ∧
      (∀ n, r = .ok n → n ≤ buf.length) ∧
      (∀ e, r = .error e → p e = true)
  | .pending s' => stateOK s' = true ∧ stateErrOK p s' = true
  | .spin s' => stateOK s' = true ∧ stateErrOK p s' = true

/-- Combined characterization of one poll_flush (hence poll_close) call. -/
def flushResultInv (p : IoError → Bool) : PollResult Unit → Prop
  | .unwrapNone => False
  | .ready r s' =>
      (∃ inner, s' = .idle (some inner) ∧ inner.last_op = none) ∧
      (∀ e, r = .error e → p e = true)
  | .pending s' => stateOK s' = true ∧ stateErrOK p s' = true
  | .spin s' => stateOK s' = true ∧ stateErrOK p s' = true

end Stdout

namespace Stdin

/-- The bridge state invariant claimed by the spec: `Idle` always holds
`Some(Inner)`; `Busy` is unconstrained. -/
def stateOK : State → Bool
  | .idle o => o.isSome
  | .busy _ _ => true

/-- Number of blocking operations in flight. -/
def inFlight : State → Nat
  | .idle _ => 0
  | .busy _ _ => 1

/-- Every error recorded in the operation satisfies `p`. -/
def opErrOK (p : IoError → Bool) : Operation → Bool
  | .readLine r => errOK p r
  | .read r => errOK p r

/-- Every error recorded in the inner bundle satisfies `p`. -/
def innerErrOK (p : IoError → Bool) (inner : Inner) : Bool :=
  match inner.last_op with
  | some op => opErrOK p op
  | none => true

/-- Every error recorded anywhere in the state satisfies `p`. -/
def stateErrOK (p : IoError → Bool) : State → Bool
  | .idle none => true
  | .idle (some inner) => innerErrOK p inner
  | .busy inner _ => innerErrOK p inner

/-- Every error the environment ever hands to the bridge satisfies `p`. -/
def envErrOK (p : IoError → Bool) : List Env → Bool
  | [] => true
  | .pending :: env => envErrOK p env
  | .done rr _ lr _ :: env => errOK p rr && errOK p lr && envErrOK p env

/-- The state a poll_read call left behind, if it did not fail the unwrap. -/
def ReadResult.post : ReadResult → Option State
  | .ready _ _ s => some s
  | .pending _ s => some s
  | .unwrapNone => none
  | .spin _ s => some s

/-- The state a read_line poll left behind, if it did not fail the unwrap. -/
def LineResult.post : LineResult → Option State
  | .ready _ _ s => some s
  | .pending _ s => some s
  | .unwrapNone => none
  | .spin _ s => some s

/-- Combined characterization of one poll_read call, mirroring
`Stdout.writeResultInv`. -/
def readResultInv (p : IoError → Bool) (buf : List Nat) : ReadResult → Prop
  | .unwrapNone => False
  | .ready r _ s' =>
      (∃ inner, s' = .idle (some inner) ∧ inner.last_op = none) ∧
      (∀ n, r = .ok n → n ≤ buf.length) ∧
      (∀ e, r = .error e → p e = true)
  | .pending _ s' => stateOK s' = true ∧ stateErrOK p s' = true
  | .spin _ s' => stateOK s' = true ∧ stateErrOK p s' = true

/-- Combined characterization of one read_line poll call. -/
def lineResultInv (p : IoError → Bool) : LineResult → Prop
  | .unwrapNone => False
  | .ready r _ s' =>
      (∃ inner, s' = .idle (some inner) ∧ inner.last_op = none) ∧
      (∀ e, r = .error e → p e = true)
  | .pending _ s' => stateOK s' = true ∧ stateErrOK p s' = true
  | .spin _ s' => stateOK s' = true ∧ stateErrOK p s' = true

end Stdin

/-! ## Master invariant lemmas for the four bridge operations -/

namespace Stdout

/-- Every poll_write call from a state satisfying the invariant satisfies
the combined characterization `writeResultInv`. -/
theorem poll_write_inv (p : IoError → Bool) (fuel : Nat) (buf : List Nat)
    (s : State) (env : List Env) (hs : stateOK s = true)
    (hp : stateErrOK p s = true) (he : envErrOK p env = true) :
    writeResultInv p buf (poll_write fuel buf s env) := by
  induction fuel generalizing s env with
  | zero => simp only [poll_write, writeResultInv]; exact ⟨hs, hp⟩
  | succ fuel ih =>
    cases s with
    | idle o =>
      cases o with
      | none => simp [stateOK] at hs
      | some inner =>
        rcases hop : inner.last_op with _ | op
        · simp only [poll_write, hop]
          exact ih _ env rfl (by simp [stateErrOK, innerErrOK]) he
        · cases op with
          | write res =>
            simp only [stateErrOK, innerErrOK, hop] at hp
            cases res with
            | error e =>
              simp only [poll_write, hop, writeResultInv]
              refine ⟨⟨_, rfl, rfl⟩, by simp, ?_⟩
              intro e' h
              cases h
              simpa [opErrOK, errOK] using hp
            | ok n =>
              by_cases hn : n ≤ buf.length
              · simp only [poll_write, hop, if_pos hn, writeResultInv]
                refine ⟨⟨_, rfl, rfl⟩, ?_, by simp⟩
                intro m hm
                cases hm
                exact hn
              · simp only [poll_write, hop, if_neg hn]
                exact ih _ env rfl (by simp [stateErrOK, innerErrOK]) he
          | flush res =>
            simp only [poll_write, hop]
            exact ih _ env rfl (by simp [stateErrOK, innerErrOK]) he
    | busy inner job =>
      cases env with
      | nil =>
        simp only [poll_write, writeResultInv]
        exact ⟨rfl, hp⟩
      | cons a env =>
        cases a with
        | pending =>
          simp only [poll_write, writeResultInv]
          exact ⟨rfl, hp⟩
        | done wr fr =>
          simp only [poll_write]
          simp only [envErrOK, Bool.and_eq_true] at he
          obtain ⟨⟨h1, h2⟩, h3⟩ := he
          apply ih _ env _ _ h3
          · cases job <;> simp [completeJob, stateOK]
          · cases job <;>
              simp [completeJob, stateErrOK, innerErrOK, opErrOK, h1, h2]

/-- Every poll_flush call from a state satisfying the invariant satisfies
the combined characterization `flushResultInv`. -/
theorem poll_flush_inv (p : IoError → Bool) (fuel : Nat)
    (s : State) (env : List Env) (hs : stateOK s = true)
    (hp : stateErrOK p s = true) (he : envErrOK p env = true) :
    flushResultInv p (poll_flush fuel s env) := by
  induction fuel generalizing s env with
  | zero => simp only [poll_flush, flushResultInv]; exact ⟨hs, hp⟩
  | succ fuel ih =>
    cases s with
    | idle o =>
      cases o with
      | none => simp [stateOK] at hs
      | some inner =>
        rcases hop : inner.last_op with _ | op
        · simp only [poll_flush, hop]
          exact ih _ env rfl (by simp [stateErrOK, innerErrOK]) he
        · cases op with
          | flush res =>
            simp only [stateErrOK, innerErrOK, hop] at hp
            simp only [poll_flush, hop, flushResultInv]
            refine ⟨⟨_, rfl, rfl⟩, ?_⟩
            intro e h
            subst h
            simpa [opErrOK, errOK] using hp
          | write res =>
            simp only [poll_flush, hop]
            exact ih _ env rfl (by simp [stateErrOK, innerErrOK]) he
    | busy inner job =>
      cases env with
      | nil =>
        simp only [poll_flush, flushResultInv]
        exact ⟨rfl, hp⟩
      | cons a env =>
        cases a with
        | pending =>
          simp only [poll_flush, flushResultInv]
          exact ⟨rfl, hp⟩
        | done wr fr =>
          simp only [poll_flush]
          simp only [envErrOK, Bool.and_eq_true] at he
          obtain ⟨⟨h1, h2⟩, h3⟩ := he
          apply ih _ env _ _ h3
          · cases job <;> simp [completeJob, stateOK]
          · cases job <;>
              simp [completeJob, stateErrOK, innerErrOK, opErrOK, h1, h2]

end Stdout

namespace Stdin

/-- Every poll_read call from a state satisfying the invariant satisfies
the combined characterization `readResultInv`. -/
theorem poll_read_inv (p : IoError → Bool) (fuel : Nat) (buf : List Nat)
    (s : State) (env : List Env) (hs : stateOK s = true)
    (hp : stateErrOK p s = true) (he : envErrOK p env = true) :
    readResultInv p buf (poll_read fuel buf s env) := by
  induction fuel generalizing s env with
  | zero => simp only [poll_read, readResultInv]; exact ⟨hs, hp⟩
  | succ fuel ih =>
    cases s with
    | idle o =>
      cases o with
      | none => simp [stateOK] at hs
      | some inner =>
        rcases hop : inner.last_op with _ | op
        · simp only [poll_read, hop]
          exact ih _ env rfl (by simp [stateErrOK, innerErrOK]) he
        · cases op with
          | read res =>
            simp only [stateErrOK, innerErrOK, hop] at hp
            cases res with
            | error e =>
              simp only [poll_read, hop, readResultInv]
              refine ⟨⟨_, rfl, rfl⟩, by simp, ?_⟩
              intro e' h
              cases h
              simpa [opErrOK, errOK] using hp
            | ok n =>
              by_cases hn : n ≤ buf.length
              · simp only [poll_read, hop, if_pos hn, readResultInv]
                refine ⟨⟨_, rfl, rfl⟩, ?_, by simp⟩
                intro m hm
                cases hm
                exact hn
              · simp only [poll_read, hop, if_neg hn]
                exact ih _ env rfl (by simp [stateErrOK, innerErrOK]) he
          | readLine res =>
            simp only [poll_read, hop]
            exact ih _ env rfl (by simp [stateErrOK, innerErrOK]) he
    | busy inner job =>
      cases env with
      | nil =>
        simp only [poll_read, readResultInv]
        exact ⟨rfl, hp⟩
      | cons a env =>
        cases a with
        | pending =>
          simp only [poll_read, readResultInv]
          exact ⟨rfl, hp⟩
        | done rr d lr ld =>
          simp only [poll_read]
          simp only [envErrOK, Bool.and_eq_true] at he
          obtain ⟨⟨h1, h2⟩, h3⟩ := he
          apply ih _ env _ _ h3
          · cases job <;> simp [completeJob, stateOK]
          · cases job <;>
              simp [completeJob, stateErrOK, innerErrOK, opErrOK, h1, h2]

/-- Every read_line poll call from a state satisfying the invariant
satisfies the combined characterization `lineResultInv`. -/
theorem read_line_inv (p : IoError → Bool) (fuel : Nat) (buf : String)
    (s : State) (env : List Env) (hs : stateOK s = true)
    (hp : stateErrOK p s = true) (he : envErrOK p env = true) :
    lineResultInv p (read_line fuel buf s env) := by
  induction fuel generalizing buf s env with
  | zero => simp only [read_line, lineResultInv]; exact ⟨hs, hp⟩
  | succ fuel ih =>
    cases s with
    | idle o =>
      cases o with
      | none => simp [stateOK] at hs
      | some inner =>
        rcases hop : inner.last_op with _ | op
        · simp only [read_line, hop]
          exact ih _ _ env rfl (by simp [stateErrOK, innerErrOK]) he
        · cases op with
          | readLine res =>
            simp only [stateErrOK, innerErrOK, hop] at hp
            cases res with
            | error e =>
              simp only [read_line, hop, lineResultInv]
              refine ⟨⟨_, rfl, rfl⟩, ?_⟩
              intro e' h
              cases h
              simpa [opErrOK, errOK] using hp
            | ok n =>
              simp only [read_line, hop, lineResultInv]
              exact ⟨⟨_, rfl, rfl⟩, by simp⟩
          | read res =>
            simp only [read_line, hop]
            exact ih _ _ env rfl (by simp [stateErrOK, innerErrOK]) he
    | busy inner job =>
      cases env with
      | nil =>
        simp only [read_line, lineResultInv]
        exact ⟨rfl, hp⟩
      | cons a env =>
        cases a with
        | pending =>
          simp only [read_line, lineResultInv]
          exact ⟨rfl, hp⟩
        | done rr d lr ld =>
          simp only [read_line]
          simp only [envErrOK, Bool.and_eq_true] at he
          obtain ⟨⟨h1, h2⟩, h3⟩ := he
          apply ih _ _ env _ _ h3
          · cases job <;> simp [completeJob, stateOK]
          · cases job <;>
              simp [completeJob, stateErrOK, innerErrOK, opErrOK, h1, h2]

end Stdin

/-! ## Helper lemmas: the error conditions hold trivially for the constant
true predicate, and safety consequences of the master lemmas -/

theorem errOK_trivial (r : Except IoError α) : errOK (fun _ => true) r = true := by
  cases r <;> rfl

namespace Stdout

theorem opErrOK_trivial (op : Operation) : opErrOK (fun _ => true) op = true := by
  cases op with
  | write r => cases r <;> rfl
  | flush r => cases r <;> rfl

theorem innerErrOK_trivial (inner : Inner) : innerErrOK (fun _ => true) inner = true := by
  unfold innerErrOK
  cases inner.last_op with
  | none => rfl
  | some op => exact opErrOK_trivial op

theorem stateErrOK_trivial (s : State) : stateErrOK (fun _ => true) s = true := by
  cases s with
  | idle o =>
    cases o with
    | none => rfl
    | some inner => exact innerErrOK_trivial inner
  | busy inner job => exact innerErrOK_trivial inner

theorem envErrOK_trivial (env : List Env) : envErrOK (fun _ => true) env = true := by
  induction env with
  | nil => rfl
  | cons a env ih =>
    cases a with
    | pending => exact ih
    | done wr fr => simp [envErrOK, ih, errOK_trivial]

/-- Safety consequences shared by every poll_write call: extracted from the
combined characterization. -/
theorem writeInv_safe {p : IoError → Bool} {buf : List Nat} {r : PollResult Nat}
    (h : writeResultInv p buf r) :
    r ≠ .unwrapNone ∧ ∀ s' ∈ r.post, stateOK s' = true := by
  cases r with
  | unwrapNone => exact absurd h (by simp [writeResultInv])
  | ready res s' =>
    obtain ⟨⟨inner, rfl, -⟩, -, -⟩ := h
    refine ⟨by simp, ?_⟩
    intro s' hs'
    simp only [PollResult.post, Option.mem_def, Option.some_inj] at hs'
    subst hs'
    rfl
  | pending s' =>
    refine ⟨by simp, ?_⟩
    intro s2 hs2
    simp only [PollResult.post, Option.mem_def, Option.some_inj] at hs2
    subst hs2
    exact h.1
  | spin s' =>
    refine ⟨by simp, ?_⟩
    intro s2 hs2
    simp only [PollResult.post, Option.mem_def, Option.some_inj] at hs2
    subst hs2
    exact h.1

/-- Safety consequences shared by every poll_flush call. -/
theorem flushInv_safe {p : IoError → Bool} {r : PollResult Unit}
    (h : flushResultInv p r) :
    r ≠ .unwrapNone ∧ ∀ s' ∈ r.post, stateOK s' = true := by
  cases r with
  | unwrapNone => exact absurd h (by simp [flushResultInv])
  | ready res s' =>
    obtain ⟨⟨inner, rfl, -⟩, -⟩ := h
    refine ⟨by simp, ?_⟩
    intro s' hs'
    simp only [PollResult.post, Option.mem_def, Option.some_inj] at hs'
    subst hs'
    rfl
  | pending s' =>
    refine ⟨by simp, ?_⟩
    intro s2 hs2
    simp only [PollResult.post, Option.mem_def, Option.some_inj] at hs2
    subst hs2
    exact h.1
  | spin s' =>
    refine ⟨by simp, ?_⟩
    intro s2 hs2
    simp only [PollResult.post, Option.mem_def, Option.some_inj] at hs2
    subst hs2
    exact h.1

/-- A poll_flush call that returned Ready left the bridge Idle with
`last_op` cleared; proved without any assumption on the input state. -/
theorem poll_flush_ready_post (fuel : Nat) (s : State) (env : List Env)
    (r : Except IoError Unit) (s' : State)
    (h : poll_flush fuel s env = .ready r s') :
    ∃ inner, s' = .idle (some inner) ∧ inner.last_op = none := by
  by_cases hs : stateOK s = true
  · have hinv := poll_flush_inv (fun _ => true) fuel s env hs
      (stateErrOK_trivial s) (envErrOK_trivial env)
    rw [h] at hinv
    exact hinv.1
  · cases s with
    | idle o =>
      cases o with
      | none => cases fuel <;> simp [poll_flush] at h
      | some inner => simp [stateOK] at hs
    | busy inner job => simp [stateOK] at hs

end Stdout

namespace Stdin

theorem opErrOK_trivial_in (op : Operation) : opErrOK (fun _ => true) op = true := by
  cases op with
  | readLine r => cases r <;> rfl
  | read r => cases r <;> rfl

theorem innerErrOK_trivial_in (inner : Inner) : innerErrOK (fun _ => true) inner = true := by
  unfold innerErrOK
  cases inner.last_op with
  | none => rfl
  | some op => exact opErrOK_trivial_in op

theorem stateErrOK_trivial_in (s : State) : stateErrOK (fun _ => true) s = true := by
  cases s with
  | idle o =>
    cases o with
    | none => rfl
    | some inner => exact innerErrOK_trivial_in inner
  | busy inner job => exact innerErrOK_trivial_in inner

theorem envErrOK_trivial_in (env : List Env) : envErrOK (fun _ => true) env = true := by
  induction env with
  | nil => rfl
  | cons a env ih =>
    cases a with
    | pending => exact ih
    | done rr d lr ld => simp [envErrOK, ih, errOK_trivial]

/-- Safety consequences shared by every poll_read call. -/
theorem readInv_safe {p : IoError → Bool} {buf : List Nat} {r : ReadResult}
    (h : readResultInv p buf r) :
    r ≠ .unwrapNone ∧ ∀ s' ∈ r.post, stateOK s' = true := by
  cases r with
  | unwrapNone => exact absurd h (by simp [readResultInv])
  | ready res b s' =>
    obtain ⟨⟨inner, rfl, -⟩, -, -⟩ := h
    refine ⟨by simp, ?_⟩
    intro s' hs'
    simp only [ReadResult.post, Option.mem_def, Option.some_inj] at hs'
    subst hs'
    rfl
  | pending b s' =>
    refine ⟨by simp, ?_⟩
    intro s2 hs2
    simp only [ReadResult.post, Option.mem_def, Option.some_inj] at hs2
    subst hs2
    exact h.1
  | spin b s' =>
    refine ⟨by simp, ?_⟩
    intro s2 hs2
    simp only [ReadResult.post, Option.mem_def, Option.some_inj] at hs2
    subst hs2
    exact h.1

/-- Safety consequences shared by every read_line poll call. -/
theorem lineInv_safe {p : IoError → Bool} {r : LineResult}
    (h : lineResultInv p r) :
    r ≠ .unwrapNone ∧ ∀ s' ∈ r.post, stateOK s' = true := by
  cases r with
  | unwrapNone => exact absurd h (by simp [lineResultInv])
  | ready res b s' =>
    obtain ⟨⟨inner, rfl, -⟩, -⟩ := h
    refine ⟨by simp, ?_⟩
    intro s' hs'
    simp only [LineResult.post, Option.mem_def, Option.some_inj] at hs'
    subst hs'
    rfl
  | pending b s' =>
    refine ⟨by simp, ?_⟩
    intro s2 hs2
    simp only [LineResult.post, Option.mem_def, Option.some_inj] at hs2
    subst hs2
    exact h.1
  | spin b s' =>
    refine ⟨by simp, ?_⟩
    intro s2 hs2
    simp only [LineResult.post, Option.mem_def, Option.some_inj] at hs2
    subst hs2
    exact h.1

end Stdin

namespace Stdout

/-- A poll_write call that returned Ready(Ok n) has n bounded by the length
of the caller's buffer; proved without any assumption on the input state. -/
theorem poll_write_ok_le (fuel : Nat) (buf : List Nat) (s : State) (env : List Env)
    (n : Nat) (s' : State) (h : poll_write fuel buf s env = .ready (.ok n) s') :
    n ≤ buf.length := by
  by_cases hs : stateOK s = true
  · have hinv := poll_write_inv (fun _ => true) fuel buf s env hs
      (stateErrOK_trivial s) (envErrOK_trivial env)
    rw [h] at hinv
    exact hinv.2.1 n rfl
  · cases s with
    | idle o =>
      cases o with
      | none => cases fuel <;> simp [poll_write] at h
      | some inner => simp [stateOK] at hs
    | busy inner job => simp [stateOK] at hs

end Stdout

namespace Stdin

/-- A poll_read call that returned Ready(Ok n) has n bounded by the length
of the caller's buffer; proved without any assumption on the input state. -/
theorem poll_read_ok_le (fuel : Nat) (buf : List Nat) (s : State) (env : List Env)
    (n : Nat) (b' : List Nat) (s' : State)
    (h : poll_read fuel buf s env = .ready (.ok n) b' s') :
    n ≤ buf.length := by
  by_cases hs : stateOK s = true
  · have hinv := poll_read_inv (fun _ => true) fuel buf s env hs
      (stateErrOK_trivial_in s) (envErrOK_trivial_in env)
    rw [h] at hinv
    exact hinv.2.1 n rfl
  · cases s with
    | idle o =>
      cases o with
      | none => cases fuel <;> simp [poll_read] at h
      | some inner => simp [stateOK] at hs
    | busy inner job => simp [stateOK] at hs

end Stdin

namespace Stdout

/-- A poll_write call that returned Ready left the bridge Idle with
`last_op` cleared; proved without any assumption on the input state. -/
theorem poll_write_ready_post (fuel : Nat) (buf : List Nat) (s : State)
    (env : List Env) (r : Except IoError Nat) (s' : State)
    (h : poll_write fuel buf s env = .ready r s') :
    ∃ inner, s' = .idle (some inner) ∧ inner.last_op = none := by
  by_cases hs : stateOK s = true
  · have hinv := poll_write_inv (fun _ => true) fuel buf s env hs
      (stateErrOK_trivial s) (envErrOK_trivial env)
    rw [h] at hinv
    exact hinv.1
  · cases s with
    | idle o =>
      cases o with
      | none => cases fuel <;> simp [poll_write] at h
      | some inner => simp [stateOK] at hs
    | busy inner job => simp [stateOK] at hs

end Stdout

namespace Stdin

/-- A poll_read call that returned Ready left the bridge Idle with
`last_op` cleared; proved without any assumption on the input state. -/
theorem poll_read_ready_post (fuel : Nat) (buf : List Nat) (s : State)
    (env : List Env) (r : Except IoError Nat) (b' : List Nat) (s' : State)
    (h : poll_read fuel buf s env = .ready r b' s') :
    ∃ inner, s' = .idle (some inner) ∧ inner.last_op = none := by
  by_cases hs : stateOK s = true
  · have hinv := poll_read_inv (fun _ => true) fuel buf s env hs
      (stateErrOK_trivial_in s) (envErrOK_trivial_in env)
    rw [h] at hinv
    exact hinv.1
  · cases s with
    | idle o =>
      cases o with
      | none => cases fuel <;> simp [poll_read] at h
      | some inner => simp [stateOK] at hs
    | busy inner job => simp [stateOK] at hs

/-- A read_line poll that returned Ready left the bridge Idle with
`last_op` cleared; proved without any assumption on the input state. -/
theorem read_line_ready_post (fuel : Nat) (buf : String) (s : State)
    (env : List Env) (r : Except IoError Nat) (b' : String) (s' : State)
    (h : read_line fuel buf s env = .ready r b' s') :
    ∃ inner, s' = .idle (some inner) ∧ inner.last_op = none := by
  by_cases hs : stateOK s = true
  · have hinv := read_line_inv (fun _ => true) fuel buf s env hs
      (stateErrOK_trivial_in s) (envErrOK_trivial_in env)
    rw [h] at hinv
    exact hinv.1
  · cases s with
    | idle o =>
      cases o with
      | none => cases fuel <;> simp [read_line] at h
      | some inner => simp [stateOK] at hs
    | busy inner job => simp [stateOK] at hs

end Stdin

/-- An error of kind other than TimedOut is not the TimedOut kind. -/
theorem notTimedOut_spec {e : IoError} (h : notTimedOut e = true) :
    e.kind ≠ ErrorKind.timedOut := by
  intro hk
  simp [notTimedOut, hk] at h

namespace Stdout

/-- Every error returned by a poll_write call satisfies `p` whenever every
error recorded in the state and every error the environment supplies does:
poll_write fabricates no error of its own. -/
theorem poll_write_error_p (p : IoError → Bool) (fuel : Nat) (buf : List Nat)
    (s : State) (env : List Env) (e : IoError) (s' : State)
    (hp : stateErrOK p s = true) (he : envErrOK p env = true)
    (h : poll_write fuel buf s env = .ready (.error e) s') : p e = true := by
  by_cases hs : stateOK s = true
  · have hinv := poll_write_inv p fuel buf s env hs hp he
    rw [h] at hinv
    exact hinv.2.2 e rfl
  · cases s with
    | idle o =>
      cases o with
      | none => cases fuel <;> simp [poll_write] at h
      | some inner => simp [stateOK] at hs
    | busy inner job => simp [stateOK] at hs

/-- Every error returned by a poll_flush call satisfies `p` whenever every
error in the state and environment does. -/
theorem poll_flush_error_p (p : IoError → Bool) (fuel : Nat)
    (s : State) (env : List Env) (e : IoError) (s' : State)
    (hp : stateErrOK p s = true) (he : envErrOK p env = true)
    (h : poll_flush fuel s env = .ready (.error e) s') : p e = true := by
  by_cases hs : stateOK s = true
  · have hinv := poll_flush_inv p fuel s env hs hp he
    rw [h] at hinv
    exact hinv.2 e rfl
  · cases s with
    | idle o =>
      cases o with
      | none => cases fuel <;> simp [poll_flush] at h
      | some inner => simp [stateOK] at hs
    | busy inner job => simp [stateOK] at hs

end Stdout

namespace Stdin

/-- Every error returned by a poll_read call satisfies `p` whenever every
error in the state and environment does. -/
theorem poll_read_error_p (p : IoError → Bool) (fuel : Nat) (buf : List Nat)
    (s : State) (env : List Env) (e : IoError) (b' : List Nat) (s' : State)
    (hp : stateErrOK p s = true) (he : envErrOK p env = true)
    (h : poll_read fuel buf s env = .ready (.error e) b' s') : p e = true := by
  by_cases hs : stateOK s = true
  · have hinv := poll_read_inv p fuel buf s env hs hp he
    rw [h] at hinv
    exact hinv.2.2 e rfl
  · cases s with
    | idle o =>
      cases o with
      | none => cases fuel <;> simp [poll_read] at h
      | some inner => simp [stateOK] at hs
    | busy inner job => simp [stateOK] at hs

/-- Every error returned by a read_line poll satisfies `p` whenever every
error in the state and environment does. -/
theorem read_line_error_p (p : IoError → Bool) (fuel : Nat) (buf : String)
    (s : State) (env : List Env) (e : IoError) (b' : String) (s' : State)
    (hp : stateErrOK p s = true) (he : envErrOK p env = true)
    (h : read_line fuel buf s env = .ready (.error e) b' s') : p e = true := by
  by_cases hs : stateOK s = true
  · have hinv := read_line_inv p fuel buf s env hs hp he
    rw [h] at hinv
    exact hinv.2 e rfl
  · cases s with
    | idle o =>
      cases o with
      | none => cases fuel <;> simp [read_line] at h
      | some inner => simp [stateOK] at hs
    | busy inner job => simp [stateOK] at hs

end Stdin

/-! ## Claim theorems -/

/-- **C1**: For every stream bridge and every poll call from a state where
the invariant holds (`Idle` always holds `Some(Inner)`), the call never
fails the `Idle(None)` unwrap at the start of the poll and every state it
leaves behind satisfies the invariant again — so `Idle(None)` is never
observable across poll calls, for any sequence of polls (chain the lemma).
Every state holds at most one in-flight blocking operation (`Busy` holds
exactly one join handle), and while the bridge is Busy with the in-flight
closure not yet finished, a poll of any operation dispatches nothing new and
leaves the Busy handle in place: a new blocking closure is dispatched only
from the Idle state. -/
theorem claim1_bridge_state_invariant
    (fuel : Nat) (bufW bufR : List Nat) (bufL : String)
    (so : Stdout.State) (envo : List Stdout.Env)
    (si : Stdin.State) (envi : List Stdin.Env)
    (binner : Stdout.Inner) (bjob : Stdout.Job)
    (rinner : Stdin.Inner) (rjob : Stdin.Job)
    (hso : Stdout.stateOK so = true) (hsi : Stdin.stateOK si = true) :
    (Stdout.poll_write fuel bufW so envo ≠ .unwrapNone ∧
      ∀ s' ∈ (Stdout.poll_write fuel bufW so envo).post, Stdout.stateOK s' = true) ∧
    (Stdout.poll_flush fuel so envo ≠ .unwrapNone ∧
      ∀ s' ∈ (Stdout.poll_flush fuel so envo).post, Stdout.stateOK s' = true) ∧
    (Stdin.poll_read fuel bufR si envi ≠ .unwrapNone ∧
      ∀ s' ∈ (Stdin.poll_read fuel bufR si envi).post, Stdin.stateOK s' = true) ∧
    (Stdin.read_line fuel bufL si envi ≠ .unwrapNone ∧
      ∀ s' ∈ (Stdin.read_line fuel bufL si envi).post, Stdin.stateOK s' = true) ∧
    (∀ s : Stdout.State, Stdout.inFlight s ≤ 1) ∧
    (∀ s : Stdin.State, Stdin.inFlight s ≤ 1) ∧
    Stdout.poll_write (fuel + 1) bufW (.busy binner bjob) [] =
      .pending (.busy binner bjob) ∧
    Stdout.poll_flush (fuel + 1) (.busy binner bjob) [] =
      .pending (.busy binner bjob) ∧
    Stdin.poll_read (fuel + 1) bufR (.busy rinner rjob) [] =
      .pending bufR (.busy rinner rjob) ∧
    Stdin.read_line (fuel + 1) bufL (.busy rinner rjob) [] =
      .pending bufL (.busy rinner rjob) := by
  refine ⟨Stdout.writeInv_safe (Stdout.poll_write_inv (fun _ => true) fuel bufW so envo hso
      (Stdout.stateErrOK_trivial so) (Stdout.envErrOK_trivial envo)),
    Stdout.flushInv_safe (Stdout.poll_flush_inv (fun _ => true) fuel so envo hso
      (Stdout.stateErrOK_trivial so) (Stdout.envErrOK_trivial envo)),
    Stdin.readInv_safe (Stdin.poll_read_inv (fun _ => true) fuel bufR si envi hsi
      (Stdin.stateErrOK_trivial_in si) (Stdin.envErrOK_trivial_in envi)),
    Stdin.lineInv_safe (Stdin.read_line_inv (fun _ => true) fuel bufL si envi hsi
      (Stdin.stateErrOK_trivial_in si) (Stdin.envErrOK_trivial_in envi)),
    ?_, ?_, rfl, rfl, rfl, rfl⟩
  · intro s
    cases s <;> simp [Stdout.inFlight]
  · intro s
    cases s <;> simp [Stdin.inFlight]

/-- Witness for C1: the theorem applied at a concrete fresh bridge state. -/
theorem claim1_witness :
    Stdout.stateOK (.idle (some ⟨[], none⟩)) = true ∧
    Stdin.stateOK (.idle (some ⟨"", [], none⟩)) = true ∧
    ((Stdout.poll_write 1 [7] (.idle (some ⟨[], none⟩)) [] ≠ .unwrapNone ∧
      ∀ s' ∈ (Stdout.poll_write 1 [7] (.idle (some ⟨[], none⟩)) []).post,
        Stdout.stateOK s' = true) ∧
    (Stdout.poll_flush 1 (.idle (some ⟨[], none⟩)) [] ≠ .unwrapNone ∧
      ∀ s' ∈ (Stdout.poll_flush 1 (.idle (some ⟨[], none⟩)) []).post,
        Stdout.stateOK s' = true) ∧
    (Stdin.poll_read 1 [8] (.idle (some ⟨"", [], none⟩)) [] ≠ .unwrapNone ∧
      ∀ s' ∈ (Stdin.poll_read 1 [8] (.idle (some ⟨"", [], none⟩)) []).post,
        Stdin.stateOK s' = true) ∧
    (Stdin.read_line 1 "x" (.idle (some ⟨"", [], none⟩)) [] ≠ .unwrapNone ∧
      ∀ s' ∈ (Stdin.read_line 1 "x" (.idle (some ⟨"", [], none⟩)) []).post,
        Stdin.stateOK s' = true) ∧
    (∀ s : Stdout.State, Stdout.inFlight s ≤ 1) ∧
    (∀ s : Stdin.State, Stdin.inFlight s ≤ 1) ∧
    Stdout.poll_write 2 [7] (.busy ⟨[], none⟩ .write) [] =
      .pending (.busy ⟨[], none⟩ .write) ∧
    Stdout.poll_flush 2 (.busy ⟨[], none⟩ .write) [] =
      .pending (.busy ⟨[], none⟩ .write) ∧
    Stdin.poll_read 2 [8] (.busy ⟨"", [], none⟩ .read) [] =
      .pending [8] (.busy ⟨"", [], none⟩ .read) ∧
    Stdin.read_line 2 "x" (.busy ⟨"", [], none⟩ .read) [] =
      .pending "x" (.busy ⟨"", [], none⟩ .read)) :=
  ⟨rfl, rfl,
    claim1_bridge_state_invariant 1 [7] [8] "x"
      (.idle (some ⟨[], none⟩)) [] (.idle (some ⟨"", [], none⟩)) []
      ⟨[], none⟩ .write ⟨"", [], none⟩ .read rfl rfl⟩

/-- **C2**: A write or read poll that completes with a byte count never
exceeds the current caller buffer's length (so for buffer sizes n1 < n2, a
write of size n2 followed by a write of size n1 returns at most n1); and a
poll that finds a recorded matching Ok result whose byte count exceeds the
current buffer discards it and dispatches a fresh blocking operation with
the current buffer, reporting not-ready. -/
theorem claim2_stale_result_discard
    (fuelW fuelR fuel : Nat) (bufW bufR bufS bufT bufI bufI2 : List Nat)
    (so : Stdout.State) (envo : List Stdout.Env)
    (si : Stdin.State) (envi : List Stdin.Env)
    (n m n2 m2 : Nat) (sW : Stdout.State) (bR : List Nat) (sR : Stdin.State)
    (line0 : String)
    (hW : Stdout.poll_write fuelW bufW so envo = .ready (.ok n) sW)
    (hR : Stdin.poll_read fuelR bufR si envi = .ready (.ok m) bR sR)
    (hstaleW : bufS.length < n2) (hstaleR : bufT.length < m2) :
    n ≤ bufW.length ∧ m ≤ bufR.length ∧
    Stdout.poll_write (fuel + 3) bufS
        (.idle (some ⟨bufI, some (.write (.ok n2))⟩)) [] =
      .pending (.busy ⟨bufS, none⟩ .write) ∧
    Stdin.poll_read (fuel + 3) bufT
        (.idle (some ⟨line0, bufI2, some (.read (.ok m2))⟩)) [] =
      .pending bufT (.busy ⟨line0, Stdin.set_len bufI2 bufT.length, none⟩ .read) := by
  refine ⟨Stdout.poll_write_ok_le fuelW bufW so envo n sW hW,
    Stdin.poll_read_ok_le fuelR bufR si envi m bR sR hR, ?_, ?_⟩
  · have hn : ¬ n2 ≤ bufS.length := Nat.not_le.mpr hstaleW
    calc Stdout.poll_write (fuel + 3) bufS
          (.idle (some ⟨bufI, some (.write (.ok n2))⟩)) []
        = if n2 ≤ bufS.length then
            .ready (.ok n2) (.idle (some ⟨bufI, none⟩))
          else
            Stdout.poll_write (fuel + 2) bufS (.idle (some ⟨bufI, none⟩)) [] := rfl
      _ = Stdout.poll_write (fuel + 2) bufS (.idle (some ⟨bufI, none⟩)) [] := if_neg hn
      _ = .pending (.busy ⟨bufS, none⟩ .write) := rfl
  · have hm : ¬ m2 ≤ bufT.length := Nat.not_le.mpr hstaleR
    calc Stdin.poll_read (fuel + 3) bufT
          (.idle (some ⟨line0, bufI2, some (.read (.ok m2))⟩)) []
        = if m2 ≤ bufT.length then
            .ready (.ok m2) (bufI2.take m2 ++ bufT.drop m2)
              (.idle (some ⟨line0, bufI2, none⟩))
          else
            Stdin.poll_read (fuel + 2) bufT (.idle (some ⟨line0, bufI2, none⟩)) [] := rfl
      _ = Stdin.poll_read (fuel + 2) bufT (.idle (some ⟨line0, bufI2, none⟩)) [] := if_neg hm
      _ = .pending bufT
            (.busy ⟨line0, Stdin.set_len bufI2 bufT.length, none⟩ .read) := rfl

/-- Witness for C2: a prior write of size 3 recorded Ok 3; the current
buffer has size 2, so the stale result is discarded and a fresh write of the
2-byte buffer is dispatched; completed polls return counts within bounds. -/
theorem claim2_witness :
    2 ≤ ([9, 9] : List Nat).length ∧ 1 ≤ ([8] : List Nat).length ∧
    Stdout.poll_write 3 [5, 6] (.idle (some ⟨[1, 2, 3], some (.write (.ok 3))⟩)) [] =
      .pending (.busy ⟨[5, 6], none⟩ .write) ∧
    Stdin.poll_read 3 [5] (.idle (some ⟨"", [1, 2, 3], some (.read (.ok 3))⟩)) [] =
      .pending [5] (.busy ⟨"", Stdin.set_len [1, 2, 3] 1, none⟩ .read) :=
  claim2_stale_result_discard 1 1 0 [9, 9] [8] [5, 6] [5] [1, 2, 3] [1, 2, 3]
    (.idle (some ⟨[9, 9], some (.write (.ok 2))⟩)) []
    (.idle (some ⟨"", [8], some (.read (.ok 1))⟩)) []
    2 1 3 3 (.idle (some ⟨[9, 9], none⟩)) ([8].take 1 ++ [8].drop 1)
    (.idle (some ⟨"", [8], none⟩)) ""
    (by decide) (by decide) (by decide) (by decide)

/-- **C3**: On every poll of either deadline combinator the wrapped
operation is polled first and, if Ready, its result is returned — wrapped in
Ok by the generic combinator, passed through unchanged by the I/O one —
without the timer being consulted (the timer's state component is returned
untouched); a timeout error is produced by the generic combinator only on a
poll where the wrapped operation was Pending and the timer had elapsed, and
the I/O combinator stays Pending while both the operation and the timer are
Pending. -/
theorem claim3_completion_priority
    {σf σd σg σh : Type} {α β : Type}
    (tf : TimeoutFuture σf σd α) (t : Timeout σg σh β)
    (s s3 : σf × σd) (u u2 : σg × σh) (s4 : σf × σd)
    (sf' : σf) (v : α) (sg' sg2 : σg) (sd2 : σh) (r : Except IoError β)
    (te : TimeoutError)
    (hready : tf.future.poll s.1 = (sf', .ready v))
    (hioready : t.future.poll u.1 = (sg', .ready r))
    (hTO : TimeoutFuture.poll tf s3 = (s4, .ready (.error te)))
    (hfp : t.future.poll u2.1 = (sg2, .pending))
    (hdp : t.timeout.poll u2.2 = (sd2, .pending)) :
    TimeoutFuture.poll tf s = ((sf', s.2), .ready (.ok v)) ∧
    Timeout.poll t u = ((sg', u.2), .ready r) ∧
    ((∃ x, tf.future.poll s3.1 = (x, .pending)) ∧
      ∃ y u', tf.delay.poll s3.2 = (y, .ready u')) ∧
    Timeout.poll t u2 = ((sg2, sd2), .pending) := by
  refine ⟨?_, ?_, ?_, ?_⟩
  · simp [TimeoutFuture.poll, hready]
  · simp [Timeout.poll, hioready]
  · cases hf : tf.future.poll s3.1 with
    | mk x pr =>
      cases pr with
      | ready w => simp [TimeoutFuture.poll, hf] at hTO
      | pending =>
        cases hd : tf.delay.poll s3.2 with
        | mk y pd =>
          cases pd with
          | ready u' => exact ⟨⟨x, rfl⟩, ⟨y, u', rfl⟩⟩
          | pending => simp [TimeoutFuture.poll, hf, hd] at hTO
  · simp [Timeout.poll, hfp, hdp]

/-- Witness for C3: the fixture operation is Ready in state true and Pending
in state false, the fixture timer `unitDelay` is always elapsed: in state
true the operation's result wins even though the timer is also ready on the
same poll; in state false the generic combinator times out. -/
theorem claim3_witness :
    TimeoutFuture.poll ⟨boolFuture, unitDelay⟩ (true, ()) =
      ((true, ()), .ready (.ok 42)) ∧
    Timeout.poll ⟨boolIoFuture, boolDelay⟩ (true, true) =
      ((true, true), .ready (.ok 7)) ∧
    ((∃ x, boolFuture.poll false = (x, .pending)) ∧
      ∃ y u', unitDelay.poll () = (y, .ready u')) ∧
    Timeout.poll ⟨boolIoFuture, boolDelay⟩ (false, false) =
      ((false, false), .pending) := by
  exact claim3_completion_priority
    ⟨boolFuture, unitDelay⟩ ⟨boolIoFuture, boolDelay⟩
    (true, ()) (false, ()) (true, true) (false, false) ((false, ()))
    true 42 true false false (.ok 7) ⟨⟩
    rfl rfl rfl rfl rfl

/-- **C4 counterexample**: the claim that a recorded result of
non-matching kind is left in place — so that a recorded Flush error is not
discarded by a subsequent write poll, nor a ReadLine error by a read poll —
is false at this concrete input.  Starting Idle with
`last_op = Some(Flush(Err(e)))`, a write poll removes the record
(`inner.last_op.take()` in stdout.rs line 154 clears `last_op`
unconditionally, matching kind or not), dispatches a fresh write, and the
Flush error is gone from the resulting state, never to be propagated; the
same happens to a ReadLine error hit by poll_read (stdin.rs line 213). -/
theorem claim4_counterexample :
    Stdout.poll_write 2 [0]
        (.idle (some ⟨[], some (.flush (.error ⟨.other 7, "boom"⟩))⟩)) [] =
      .pending (.busy ⟨[0], none⟩ .write) ∧
    Stdin.poll_read 2 [0]
        (.idle (some ⟨"", [], some (.readLine (.error ⟨.other 7, "boom"⟩))⟩)) [] =
      .pending [0] (.busy ⟨"", [0], none⟩ .read) :=
  ⟨rfl, rfl⟩

/-- **C4 amended**: only a recorded result of the matching kind is consumed
and returned to a caller (third and fourth conjuncts); a recorded result of
non-matching kind is removed and dropped by the poll — `last_op.take()`
clears it unconditionally — which then dispatches a fresh operation of the
current kind, so a recorded Flush error is discarded by a subsequent write
poll and a recorded ReadLine error is discarded by a subsequent read poll
(first and second conjuncts). -/
theorem claim4_mismatched_result_dropped
    (fuel : Nat) (buf bufI bufI2 : List Nat) (line0 line1 : String)
    (bufL : String) (r : Except IoError Unit) (rl : Except IoError Nat)
    (e : IoError) (env : List Stdout.Env) (envi : List Stdin.Env) :
    Stdout.poll_write (fuel + 2) buf (.idle (some ⟨bufI, some (.flush r)⟩)) [] =
      .pending (.busy ⟨buf, none⟩ .write) ∧
    Stdin.poll_read (fuel + 2) buf
        (.idle (some ⟨line0, bufI2, some (.readLine rl)⟩)) [] =
      .pending buf (.busy ⟨line0, Stdin.set_len bufI2 buf.length, none⟩ .read) ∧
    Stdout.poll_flush (fuel + 1) (.idle (some ⟨bufI, some (.flush r)⟩)) env =
      .ready r (.idle (some ⟨bufI, none⟩)) ∧
    Stdin.read_line (fuel + 1) bufL
        (.idle (some ⟨line1, bufI2, some (.readLine (.error e))⟩)) envi =
      .ready (.error e) bufL (.idle (some ⟨line1, bufI2, none⟩)) :=
  ⟨rfl, rfl, rfl, rfl⟩

/-- **C5**: an I/O failure consumed from `last_op` is returned exactly once,
to the consuming poll call: the record is cleared before the error is
returned, the post state is Idle holding Some(Inner) with an empty
`last_op`, and no blocking operation is in flight afterwards (no automatic
retry was dispatched) — so no later call can observe the same failure again
unless the environment produces it anew, and the bridge is ready for a
fresh operation.  Stated for all four bridge operations. -/
theorem claim5_error_reported_once
    (fuelW fuelF fuelR fuelL : Nat) (bufW bufR : List Nat) (bufL : String)
    (sW sF : Stdout.State) (sR sL : Stdin.State)
    (envW envF : List Stdout.Env) (envR envL : List Stdin.Env)
    (e1 e2 e3 e4 : IoError)
    (sW' sF' : Stdout.State) (bR' : List Nat) (sR' : Stdin.State)
    (bL' : String) (sL' : Stdin.State)
    (hW : Stdout.poll_write fuelW bufW sW envW = .ready (.error e1) sW')
    (hF : Stdout.poll_flush fuelF sF envF = .ready (.error e2) sF')
    (hR : Stdin.poll_read fuelR bufR sR envR = .ready (.error e3) bR' sR')
    (hL : Stdin.read_line fuelL bufL sL envL = .ready (.error e4) bL' sL') :
    (∃ inner, sW' = Stdout.State.idle (some inner) ∧ inner.last_op = none) ∧
    Stdout.inFlight sW' = 0 ∧
    (∃ inner, sF' = Stdout.State.idle (some inner) ∧ inner.last_op = none) ∧
    Stdout.inFlight sF' = 0 ∧
    (∃ inner, sR' = Stdin.State.idle (some inner) ∧ inner.last_op = none) ∧
    Stdin.inFlight sR' = 0 ∧
    (∃ inner, sL' = Stdin.State.idle (some inner) ∧ inner.last_op = none) ∧
    Stdin.inFlight sL' = 0 := by
  obtain ⟨i1, rfl, h1⟩ := Stdout.poll_write_ready_post fuelW bufW sW envW _ sW' hW
  obtain ⟨i2, rfl, h2⟩ := Stdout.poll_flush_ready_post fuelF sF envF _ sF' hF
  obtain ⟨i3, rfl, h3⟩ := Stdin.poll_read_ready_post fuelR bufR sR envR _ bR' sR' hR
  obtain ⟨i4, rfl, h4⟩ := Stdin.read_line_ready_post fuelL bufL sL envL _ bL' sL' hL
  exact ⟨⟨i1, rfl, h1⟩, rfl, ⟨i2, rfl, h2⟩, rfl, ⟨i3, rfl, h3⟩, rfl, ⟨i4, rfl, h4⟩, rfl⟩

/-- Witness for C5: each of the four operations consuming a recorded error
at a concrete input. -/
theorem claim5_witness :
    (∃ inner, Stdout.State.idle (some ⟨[1], none⟩) = Stdout.State.idle (some inner) ∧
      inner.last_op = none) ∧
    Stdout.inFlight (.idle (some ⟨[1], none⟩)) = 0 ∧
    (∃ inner, Stdout.State.idle (some ⟨[2], none⟩) = Stdout.State.idle (some inner) ∧
      inner.last_op = none) ∧
    Stdout.inFlight (.idle (some ⟨[2], none⟩)) = 0 ∧
    (∃ inner, Stdin.State.idle (some ⟨"a", [3], none⟩) = Stdin.State.idle (some inner) ∧
      inner.last_op = none) ∧
    Stdin.inFlight (.idle (some ⟨"a", [3], none⟩)) = 0 ∧
    (∃ inner, Stdin.State.idle (some ⟨"b", [4], none⟩) = Stdin.State.idle (some inner) ∧
      inner.last_op = none) ∧
    Stdin.inFlight (.idle (some ⟨"b", [4], none⟩)) = 0 := by
  exact claim5_error_reported_once 1 1 1 1 [9] [9] "x"
    (.idle (some ⟨[1], some (.write (.error ⟨.other 1, "e1"⟩))⟩))
    (.idle (some ⟨[2], some (.flush (.error ⟨.other 2, "e2"⟩))⟩))
    (.idle (some ⟨"a", [3], some (.read (.error ⟨.other 3, "e3"⟩))⟩))
    (.idle (some ⟨"b", [4], some (.readLine (.error ⟨.other 4, "e4"⟩))⟩))
    [] [] [] []
    ⟨.other 1, "e1"⟩ ⟨.other 2, "e2"⟩ ⟨.other 3, "e3"⟩ ⟨.other 4, "e4"⟩
    (.idle (some ⟨[1], none⟩)) (.idle (some ⟨[2], none⟩))
    [9] (.idle (some ⟨"a", [3], none⟩))
    "x" (.idle (some ⟨"b", [4], none⟩))
    rfl rfl rfl rfl

/-- **C6**: each dispatched read_line closure first clears the internal line
accumulator and then reads one line into it — the post state's accumulator
is exactly the newly read line, independent of the previous accumulator
contents `line0` — and on consumption of the recorded ReadLine result the
accumulator is appended to the caller's String exactly once, never
replacing its contents: a first completed call turns `buf` into `buf ++ l1`,
and a second completed call on the resulting state turns `buf ++ l1` into
`buf ++ l1 ++ l2` — two lines' worth of content, no overwrite, no
duplication. -/
theorem claim6_read_line_appends_once
    (fuel : Nat) (buf : String) (line0 : String) (buf0 : List Nat)
    (n1 n2 : Nat) (l1 l2 : String) (rr rr2 : Except IoError Nat)
    (d d2 : List Nat) :
    Stdin.read_line (fuel + 3) buf (.idle (some ⟨line0, buf0, none⟩))
        [.done rr d (.ok n1) l1] =
      .ready (.ok n1) (buf ++ l1) (.idle (some ⟨l1, buf0, none⟩)) ∧
    Stdin.read_line (fuel + 3) (buf ++ l1) (.idle (some ⟨l1, buf0, none⟩))
        [.done rr2 d2 (.ok n2) l2] =
      .ready (.ok n2) (buf ++ l1 ++ l2) (.idle (some ⟨l2, buf0, none⟩)) :=
  ⟨rfl, rfl⟩

/-- **C7**: concrete scenario from the spec.  The bridge starts Idle with an
empty inner buffer and no recorded result; a write poll with the 5-byte
buffer "hello" copies the caller's bytes into the inner buffer, dispatches a
blocking write and returns not-ready; once the dispatched closure completes
with recorded result Write(Ok(5)) (second conjunct shows the closure's
effect), the next write poll with the same buffer returns Ready(Ok(5)) and
leaves the bridge Idle with `last_op` empty. -/
theorem claim7_write_hello_scenario :
    Stdout.poll_write 2 [104, 101, 108, 108, 111] (.idle (some ⟨[], none⟩)) [] =
      .pending (.busy ⟨[104, 101, 108, 108, 111], none⟩ .write) ∧
    Stdout.completeJob ⟨[104, 101, 108, 108, 111], none⟩ .write (.ok 5) (.ok ()) =
      .idle (some ⟨[104, 101, 108, 108, 111], some (.write (.ok 5))⟩) ∧
    Stdout.poll_write 2 [104, 101, 108, 108, 111]
        (.busy ⟨[104, 101, 108, 108, 111], none⟩ .write) [.done (.ok 5) (.ok ())] =
      .ready (.ok 5) (.idle (some ⟨[104, 101, 108, 108, 111], none⟩)) :=
  ⟨rfl, rfl, rfl⟩

/-- **C8**: when the timer elapses while the wrapped operation is still
Pending, the generic combinator completes with `Err(TimeoutError)` — a
value in the error branch of the result, disjoint from any Ok value the
wrapped operation can produce (third conjunct) — and the I/O combinator
completes with an io::Error of kind TimedOut; and the timeout outcome is
produced only by the combinators, never by a stream bridge operation:
whenever neither the recorded state nor the environment supplies a
TimedOut-kind error, no bridge operation ever returns one (last four
conjuncts, one per operation). -/
theorem claim8_timeout_error_distinct
    {σf σd σg σh : Type} {α β : Type}
    (tf : TimeoutFuture σf σd α) (t : Timeout σg σh β)
    (s : σf × σd) (u : σg × σh) (sf' : σf) (sd' : σd) (sg' : σg) (sh' : σh)
    (fuelW fuelF fuelR fuelL : Nat) (bufW bufR : List Nat) (bufL : String)
    (sWr sF : Stdout.State) (sR sL : Stdin.State)
    (envW envF : List Stdout.Env) (envR envL : List Stdin.Env)
    (e1 e2 e3 e4 : IoError) (sW' sF' : Stdout.State) (bR' : List Nat)
    (sR' : Stdin.State) (bL' : String) (sL' : Stdin.State)
    (hfp : tf.future.poll s.1 = (sf', .pending))
    (hfd : tf.delay.poll s.2 = (sd', .ready ()))
    (hgp : t.future.poll u.1 = (sg', .pending))
    (hgd : t.timeout.poll u.2 = (sh', .ready ()))
    (hpW : Stdout.stateErrOK notTimedOut sWr = true)
    (heW : Stdout.envErrOK notTimedOut envW = true)
    (hW : Stdout.poll_write fuelW bufW sWr envW = .ready (.error e1) sW')
    (hpF : Stdout.stateErrOK notTimedOut sF = true)
    (heF : Stdout.envErrOK notTimedOut envF = true)
    (hF : Stdout.poll_flush fuelF sF envF = .ready (.error e2) sF')
    (hpR : Stdin.stateErrOK notTimedOut sR = true)
    (heR : Stdin.envErrOK notTimedOut envR = true)
    (hR : Stdin.poll_read fuelR bufR sR envR = .ready (.error e3) bR' sR')
    (hpL : Stdin.stateErrOK notTimedOut sL = true)
    (heL : Stdin.envErrOK notTimedOut envL = true)
    (hL : Stdin.read_line fuelL bufL sL envL = .ready (.error e4) bL' sL') :
    TimeoutFuture.poll tf s = ((sf', sd'), .ready (.error ⟨⟩)) ∧
    Timeout.poll t u =
      ((sg', sh'), .ready (.error ⟨.timedOut, "future timed out"⟩)) ∧
    (∀ v : α, (Except.error (⟨⟩ : TimeoutError) : Except TimeoutError α) ≠ .ok v) ∧
    e1.kind ≠ .timedOut ∧ e2.kind ≠ .timedOut ∧
    e3.kind ≠ .timedOut ∧ e4.kind ≠ .timedOut := by
  refine ⟨?_, ?_, ?_, ?_, ?_, ?_, ?_⟩
  · simp [TimeoutFuture.poll, hfp, hfd]
  · simp [Timeout.poll, hgp, hgd]
  · intro v h
    cases h
  · exact notTimedOut_spec
      (Stdout.poll_write_error_p notTimedOut fuelW bufW sWr envW e1 sW' hpW heW hW)
  · exact notTimedOut_spec
      (Stdout.poll_flush_error_p notTimedOut fuelF sF envF e2 sF' hpF heF hF)
  · exact notTimedOut_spec
      (Stdin.poll_read_error_p notTimedOut fuelR bufR sR envR e3 bR' sR' hpR heR hR)
  · exact notTimedOut_spec
      (Stdin.read_line_error_p notTimedOut fuelL bufL sL envL e4 bL' sL' hpL heL hL)

/-- Witness for C8: the fixture operation is Pending in state false while
the fixture timers are elapsed, and each bridge operation consumes a
recorded non-TimedOut error. -/
theorem claim8_witness :
    TimeoutFuture.poll ⟨boolFuture, unitDelay⟩ (false, ()) =
      ((false, ()), .ready (.error ⟨⟩)) ∧
    Timeout.poll ⟨boolIoFuture, boolDelay⟩ (false, true) =
      ((false, true), .ready (.error ⟨.timedOut, "future timed out"⟩)) ∧
    (∀ v : Nat, (Except.error (⟨⟩ : TimeoutError) : Except TimeoutError Nat) ≠ .ok v) ∧
    (IoError.mk (.other 1) "e1").kind ≠ .timedOut ∧
    (IoError.mk (.other 2) "e2").kind ≠ .timedOut ∧
    (IoError.mk (.other 3) "e3").kind ≠ .timedOut ∧
    (IoError.mk (.other 4) "e4").kind ≠ .timedOut := by
  exact claim8_timeout_error_distinct
    ⟨boolFuture, unitDelay⟩ ⟨boolIoFuture, boolDelay⟩
    (false, ()) (false, true) false () false true
    1 1 1 1 [9] [9] "x"
    (.idle (some ⟨[1], some (.write (.error ⟨.other 1, "e1"⟩))⟩))
    (.idle (some ⟨[2], some (.flush (.error ⟨.other 2, "e2"⟩))⟩))
    (.idle (some ⟨"a", [3], some (.read (.error ⟨.other 3, "e3"⟩))⟩))
    (.idle (some ⟨"b", [4], some (.readLine (.error ⟨.other 4, "e4"⟩))⟩))
    [] [] [] []
    ⟨.other 1, "e1"⟩ ⟨.other 2, "e2"⟩ ⟨.other 3, "e3"⟩ ⟨.other 4, "e4"⟩
    (.idle (some ⟨[1], none⟩)) (.idle (some ⟨[2], none⟩))
    [9] (.idle (some ⟨"a", [3], none⟩))
    "x" (.idle (some ⟨"b", [4], none⟩))
    rfl rfl rfl rfl
    (by decide) (by decide) rfl
    (by decide) (by decide) rfl
    (by decide) (by decide) rfl
    (by decide) (by decide) rfl

/-- **C9**: the stale-result size check applies only to successful results:
when a write or read poll consumes a recorded result of the matching kind
whose payload is an error, the error is returned to the current caller
unconditionally, for every current buffer `buf` — including one shorter
than any prior request — because the `n <= buf.len()` comparison is
evaluated only after the Ok payload has been extracted by `res?`. -/
theorem claim9_error_skips_stale_check
    (fuel : Nat) (buf bufI bufI2 : List Nat) (line0 : String) (e1 e2 : IoError)
    (env : List Stdout.Env) (envi : List Stdin.Env) :
    Stdout.poll_write (fuel + 1) buf
        (.idle (some ⟨bufI, some (.write (.error e1))⟩)) env =
      .ready (.error e1) (.idle (some ⟨bufI, none⟩)) ∧
    Stdin.poll_read (fuel + 1) buf
        (.idle (some ⟨line0, bufI2, some (.read (.error e2))⟩)) envi =
      .ready (.error e2) buf (.idle (some ⟨line0, bufI2, none⟩)) :=
  ⟨rfl, rfl⟩

/-- **C10**: poll_close is extensionally (indeed definitionally) equal to
poll_flush — the Stdout machine embeds stdout.rs, and stderr.rs lines
218-220 contain the identical code, so the statement reads for both
bridges.  The machine performs no operation on the underlying OS handle
other than write and flush (closing is flushing), and after a completed
poll_close the bridge is Idle with an empty `last_op` and remains usable
for further writes: a subsequent write poll dispatches a fresh blocking
write carrying the caller's buffer. -/
theorem claim10_close_is_flush
    (fuel : Nat) (s : Stdout.State) (env : List Stdout.Env)
    (r : Except IoError Unit) (s' : Stdout.State)
    (h : Stdout.poll_close fuel s env = .ready r s') :
    (∀ fuel2 (s2 : Stdout.State) (env2 : List Stdout.Env),
      Stdout.poll_close fuel2 s2 env2 = Stdout.poll_flush fuel2 s2 env2) ∧
    ∃ inner, s' = Stdout.State.idle (some inner) ∧ inner.last_op = none ∧
      ∀ (fuel3 : Nat) (buf : List Nat),
        Stdout.poll_write (fuel3 + 2) buf s' [] =
          .pending (.busy ⟨buf, none⟩ .write) := by
  obtain ⟨inner, rfl, hlast⟩ := Stdout.poll_flush_ready_post fuel s env r s' h
  obtain ⟨bufI, lastI⟩ := inner
  change lastI = none at hlast
  subst hlast
  exact ⟨fun _ _ _ => rfl, ⟨bufI, none⟩, rfl, rfl, fun _ _ => rfl⟩

/-- Witness for C10: a close poll that consumes a recorded Flush(Ok) result
completes and leaves the bridge writable. -/
theorem claim10_witness :
    (∀ fuel2 (s2 : Stdout.State) (env2 : List Stdout.Env),
      Stdout.poll_close fuel2 s2 env2 = Stdout.poll_flush fuel2 s2 env2) ∧
    ∃ inner, Stdout.State.idle (some ⟨[3], none⟩) = Stdout.State.idle (some inner) ∧
      inner.last_op = none ∧
      ∀ (fuel3 : Nat) (buf : List Nat),
        Stdout.poll_write (fuel3 + 2) buf (Stdout.State.idle (some ⟨[3], none⟩)) [] =
          .pending (.busy ⟨buf, none⟩ .write) := by
  exact claim10_close_is_flush 1 (.idle (some ⟨[3], some (.flush (.ok ()))⟩)) []
    (.ok ()) (.idle (some ⟨[3], none⟩)) rfl

end AsyncStd
